import Mathlib

/-!
Shallow embedding of the griptape-mcp scrape-and-index pipeline and the
query layer over its SQLite corpus store.

Sources embedded:
* scripts/scrape_common.py  : fetch_pages / fetch_one (retry, backoff, size
  ceiling), extract_mkdocs_content (section extraction).
* scripts/scrape_nodes_github.py : parse_markdown, the scrape write loop
  with its filename-fallback title.
* scripts/scrape_framework.py : the scrape write loop (upsert + children).
* src/griptape_mcp/db.py : SCHEMA_SQL (tables, FTS tables, triggers, FK
  actions), get_node_by_name, search_code_examples.

SQLite statement semantics are embedded as documented by SQLite and checked
against the library: INSERT OR REPLACE on a UNIQUE(url) conflict deletes the
conflicting row (assigning a fresh AUTOINCREMENT id to the inserted row),
fires no delete trigger on the replaced row while recursive_triggers is at
its default OFF, but does run ON DELETE foreign-key actions, and those
cascade deletions do fire the child tables' delete triggers.  Plain INSERT
fires the insert triggers.  SQL = on TEXT is case-sensitive, LIKE is
ASCII-case-insensitive, and a LIKE pattern wrapped in percent signs with no
further wildcards is substring containment.
-/

/-- Python `str.strip()`: drop leading and trailing whitespace. -/
def pyStrip (s : String) : String :=
  ⟨((s.data.dropWhile Char.isWhitespace).reverse.dropWhile
      Char.isWhitespace).reverse⟩

/-- Python `s.startswith(pre)`. -/
def pyStartsWith (s pre : String) : Bool :=
  pre.data.isPrefixOf s.data

/-- Join strings with a separator (`sep.join(parts)`). -/
def pyJoin (sep : String) : List String → String
  | [] => ""
  | [x] => x
  | x :: y :: rest => x ++ sep ++ pyJoin sep (y :: rest)

/-- Split on a single separator character, keeping empty pieces
(Python `s.split("\n")`). -/
def splitOnCharGo (sep : Char) : List Char → List (List Char)
  | [] => [[]]
  | x :: xs =>
    match splitOnCharGo sep xs with
    | [] => [[]]
    | g :: gs => if x = sep then [] :: g :: gs else (x :: g) :: gs

/-- Python `content.split("\n")`. -/
def pySplitLines (s : String) : List String :=
  (splitOnCharGo '\n' s.data).map (fun l => (⟨l⟩ : String))

/-- Split on a non-empty string pattern, non-overlapping, left to right,
keeping empty pieces; the first argument is recursion fuel (the input
length suffices). -/
def splitOnStrGo (pat : List Char) : Nat → List Char → List (List Char)
  | _, [] => [[]]
  | 0, s => [s]
  | fuel + 1, x :: xs =>
    if pat.isPrefixOf (x :: xs) then
      [] :: splitOnStrGo pat fuel (List.drop (pat.length - 1) xs)
    else
      match splitOnStrGo pat fuel xs with
      | [] => [[]]
      | g :: gs => (x :: g) :: gs

/-- Python `s.replace(pat, rep)` for a non-empty `pat`: non-overlapping
left-to-right replacement (split on the pattern, join with the
replacement). -/
def pyReplace (s pat rep : String) : String :=
  pyJoin rep ((splitOnStrGo pat.data s.data.length s.data).map
    (fun l => (⟨l⟩ : String)))

/-- ASCII lower-casing of a string (SQLite LIKE folds ASCII case only). -/
def lowerStr (s : String) : String :=
  ⟨s.data.map Char.toLower⟩

/-- `needle` occurs as a contiguous run inside `hay`. -/
def charsContains (needle hay : List Char) : Bool :=
  hay.tails.any (fun t => needle.isPrefixOf t)

/-- SQL `col LIKE '%pat%'` for a wildcard-free `pat`: ASCII-case-insensitive
substring containment. -/
def likeContains (pat s : String) : Bool :=
  charsContains (lowerStr pat).data (lowerStr s).data

/-- SQL `REPLACE(x, ' ', '')` and Python `name.replace(" ", "")`: for the
single-character pattern and empty replacement this is removing every
space character. -/
def stripSpaces (s : String) : String :=
  ⟨s.data.filter (fun c => ¬ c = ' ')⟩

/-- Python `str.title()` (ASCII): upper-case a letter that does not follow a
letter, lower-case a letter that does. -/
def pyTitle (s : String) : String :=
  ⟨(s.data.foldl
      (fun (st : List Char × Bool) c =>
        if c.isAlpha then
          (st.1 ++ [if st.2 then c.toLower else c.toUpper], true)
        else
          (st.1 ++ [c], false))
      ([], false)).1⟩

/-- Python `"\n".join(parts)`. -/
def joinNl (parts : List String) : String :=
  pyJoin "\n" parts

/-- `s.rstrip("¶").strip()` as applied to headings and titles in
`extract_mkdocs_content`: drop trailing pilcrow glyphs, then trim
whitespace. -/
def stripPilcrow (s : String) : String :=
  pyStrip ⟨(s.data.reverse.dropWhile (fun c => c = '¶')).reverse⟩

/-- A minimal `json.dumps` for a list of strings (escaping quote and
backslash; control characters do not occur in the scraped breadcrumb
labels). -/
def jsonStringLit (s : String) : String :=
  "\"" ++ ⟨s.data.foldl (fun acc c =>
      if c = '"' ∨ c = '\\' then acc ++ ['\\', c] else acc ++ [c]) []⟩ ++ "\""

/-- `json.dumps` of a list of strings, default separators. -/
def jsonDumpsList (xs : List String) : String :=
  "[" ++ pyJoin ", " (xs.map jsonStringLit) ++ "]"

/-! ## Rate-limited fetcher (scripts/scrape_common.py, fetch_pages) -/

/-- `scrape_common.MAX_RETRIES`. -/
def MAX_RETRIES : Nat := 5

/-- `scrape_common.MAX_RESPONSE_SIZE` (10 MB). -/
def MAX_RESPONSE_SIZE : Nat := 10000000

/-- Outcome of one `client.get(url)` call, the fetcher's only external
effect: either a response (status, optional well-formed content-length
header, decoded text) or a raised exception (network error etc.). -/
inductive GetResult where
  | ok (status : Nat) (contentLength : Option Nat) (text : String)
  | exc (msg : String)
deriving Repr, DecidableEq

/-- The dict returned by `fetch_one`: `{"url": ., "html": ., "error": .}`,
plus the list of 429 backoff sleeps (seconds) the call performed, in
order, which the Python code realizes as `await asyncio.sleep(wait)`. -/
structure FetchOut where
  url : String
  html : Option String
  error : Option String
  waits : List Nat
deriving Repr, DecidableEq

/-- The retry loop body of `fetch_one`, indexed by the current `attempt` and
the number of loop iterations remaining (`MAX_RETRIES - attempt`).  The
`oracle` gives the outcome of the HTTP GET at each attempt index. -/
def fetchOneGo (oracle : Nat → GetResult) (url : String) :
    Nat → Nat → FetchOut
  | _, 0 => ⟨url, none, some "Max retries exceeded (429)", []⟩
  | attempt, r + 1 =>
    match oracle attempt with
    | GetResult.exc msg => ⟨url, none, some msg, []⟩
    | GetResult.ok status contentLength text =>
      if status = 429 then
        -- `if resp.status_code == 429`: sleep 10 * (attempt + 1), continue
        let wait := 10 * (attempt + 1)
        let rest := fetchOneGo oracle url (attempt + 1) r
        ⟨url, rest.html, rest.error, wait :: rest.waits⟩
      else if ¬ (200 ≤ status ∧ status ≤ 299) then
        -- `resp.raise_for_status()` raises httpx.HTTPStatusError, caught by
        -- the except clause; its 429 sub-branch is unreachable because 429
        -- was intercepted above, so the model keeps it verbatim but dead.
        if status = 429 ∧ attempt < MAX_RETRIES - 1 then
          let wait := 10 * (attempt + 1)
          let rest := fetchOneGo oracle url (attempt + 1) r
          ⟨url, rest.html, rest.error, wait :: rest.waits⟩
        else
          ⟨url, none, some ("HTTP status error " ++ toString status), []⟩
      else
        let cl := contentLength.getD 0
        if cl > MAX_RESPONSE_SIZE then
          ⟨url, none,
            some ("Response too large (" ++ toString cl ++ " bytes)"), []⟩
        else if text.length > MAX_RESPONSE_SIZE then
          ⟨url, none,
            some ("Response too large (" ++ toString text.length ++ " bytes)"),
            []⟩
        else
          -- `await asyncio.sleep(REQUEST_DELAY)` then the success return
          ⟨url, some text, none, []⟩

/-- `fetch_one(client, url)`. -/
def fetch_one (oracle : Nat → GetResult) (url : String) : FetchOut :=
  fetchOneGo oracle url 0 MAX_RETRIES

/-- `fetch_pages(urls)`: one task per URL, results gathered by
`asyncio.gather`, which returns them in submission order.  The oracle is
per-URL and per-attempt; no URL's outcome depends on another URL. -/
def fetch_pages (oracle : String → Nat → GetResult) (urls : List String) :
    List FetchOut :=
  urls.map (fun u => fetch_one (oracle u) u)

/-- Status-429 test on a GET outcome. -/
def is429 : GetResult → Bool
  | GetResult.ok s _ _ => s == 429
  | GetResult.exc _ => false

/-- Prepend backoff waits to a fetch outcome. -/
def addWaits (ws : List Nat) (o : FetchOut) : FetchOut :=
  ⟨o.url, o.html, o.error, ws ++ o.waits⟩

theorem fetchOneGo_url (oracle : Nat → GetResult) (url : String) :
    ∀ r attempt, (fetchOneGo oracle url attempt r).url = url := by
  intro r
  induction r with
  | zero => intro attempt; rfl
  | succ r ih =>
    intro attempt
    cases h : oracle attempt with
    | exc m => simp [fetchOneGo, h]
    | ok s cl t =>
      simp only [fetchOneGo, h]
      split
      · rfl
      · split
        · split
          · rfl
          · rfl
        · split
          · rfl
          · split
            · rfl
            · rfl

theorem fetchOneGo_exclusive (oracle : Nat → GetResult) (url : String) :
    ∀ r attempt,
      ((fetchOneGo oracle url attempt r).html.isSome
        ∧ (fetchOneGo oracle url attempt r).error = none)
      ∨ ((fetchOneGo oracle url attempt r).html = none
        ∧ (fetchOneGo oracle url attempt r).error.isSome) := by
  intro r
  induction r with
  | zero => intro attempt; right; exact ⟨rfl, rfl⟩
  | succ r ih =>
    intro attempt
    cases h : oracle attempt with
    | exc m => right; simp [fetchOneGo, h]
    | ok s cl t =>
      simp only [fetchOneGo, h]
      split
      · exact ih (attempt + 1)
      · split
        · split
          · exact ih (attempt + 1)
          · right; exact ⟨rfl, rfl⟩
        · split
          · right; exact ⟨rfl, rfl⟩
          · split
            · right; exact ⟨rfl, rfl⟩
            · left; exact ⟨rfl, rfl⟩

theorem fetchOneGo_skip429 (oracle : Nat → GetResult) (url : String) :
    ∀ k attempt r, k ≤ r →
      (∀ i, i < k → is429 (oracle (attempt + i)) = true) →
      fetchOneGo oracle url attempt r =
        addWaits ((List.range k).map (fun i => 10 * (attempt + i + 1)))
          (fetchOneGo oracle url (attempt + k) (r - k)) := by
  intro k
  induction k with
  | zero =>
    intro attempt r _ _
    rfl
  | succ k ih =>
    intro attempt r hkr h429
    cases r with
    | zero => omega
    | succ r =>
      have h0 : is429 (oracle attempt) = true := by
        simpa using h429 0 (by omega)
      cases h : oracle attempt with
      | exc m => rw [h] at h0; simp [is429] at h0
      | ok s cl t =>
        rw [h] at h0
        have hs : s = 429 := by simpa [is429] using h0
        have hrec := ih (attempt + 1) r (by omega)
          (by
            intro i hi
            have hadd : attempt + 1 + i = attempt + (i + 1) := by omega
            rw [hadd]
            exact h429 (i + 1) (by omega))
        simp only [fetchOneGo, h]
        rw [if_pos hs]
        rw [hrec]
        have harith1 : attempt + 1 + k = attempt + (k + 1) := by omega
        have harith2 : r - k = r + 1 - (k + 1) := by omega
        rw [harith1, harith2]
        simp only [addWaits, FetchOut.mk.injEq]
        refine ⟨(fetchOneGo_url oracle url _ _).symm, trivial, trivial, ?_⟩
        rw [List.range_succ_eq_map, List.map_cons, List.map_map,
          List.cons_append]
        have hmap : List.map ((fun i => 10 * (attempt + i + 1)) ∘ Nat.succ)
            (List.range k)
            = List.map (fun i => 10 * (attempt + 1 + i + 1)) (List.range k) := by
          apply List.map_congr_left
          intro a _
          simp only [Function.comp_apply]
          omega
        rw [hmap]

/-- Past the bound, the oracle is never consulted: the fetch result only
depends on the outcomes of attempts with index below the remaining count. -/
theorem fetchOneGo_congr (oracle oracle2 : Nat → GetResult) (url : String) :
    ∀ r attempt, (∀ i, i < attempt + r → oracle i = oracle2 i) →
      fetchOneGo oracle url attempt r = fetchOneGo oracle2 url attempt r := by
  intro r
  induction r with
  | zero => intro attempt _; rfl
  | succ r ih =>
    intro attempt hag
    have hat : oracle attempt = oracle2 attempt := hag attempt (by omega)
    have hih : fetchOneGo oracle url (attempt + 1) r
        = fetchOneGo oracle2 url (attempt + 1) r := by
      apply ih
      intro i hi
      exact hag i (by omega)
    cases h : oracle2 attempt with
    | exc m => rw [fetchOneGo, fetchOneGo, hat, h]
    | ok s cl t =>
      rw [fetchOneGo, fetchOneGo, hat, h]
      simp only [hih]

/-- C6: a 429 response is retried up to 5 attempts with a backoff of
(attempt index) × 10 seconds before each retry; success after k < 5
consecutive 429s returns the fetched content with backoffs 10s, 20s, ...,
10k s; five consecutive 429s yield the terminal per-URL error outcome with
no sixth attempt (the result only depends on the first five attempt
outcomes); and each URL's outcome in `fetch_pages` is its own
`fetch_one`, independent of every other URL (no abort of sibling
fetches; the function is total, so no exception escapes). -/
theorem spec_C6 (oracle oracle2 : Nat → GetResult) (url : String) :
    (∀ k st cl text, k < MAX_RETRIES →
      (∀ i, i < k → is429 (oracle i) = true) →
      oracle k = GetResult.ok st cl text →
      200 ≤ st → st ≤ 299 →
      cl.getD 0 ≤ MAX_RESPONSE_SIZE → text.length ≤ MAX_RESPONSE_SIZE →
      fetch_one oracle url =
        ⟨url, some text, none, (List.range k).map (fun i => 10 * (i + 1))⟩)
    ∧ ((∀ i, i < MAX_RETRIES → is429 (oracle i) = true) →
      fetch_one oracle url =
        ⟨url, none, some "Max retries exceeded (429)", [10, 20, 30, 40, 50]⟩)
    ∧ ((∀ i, i < MAX_RETRIES → oracle i = oracle2 i) →
      fetch_one oracle url = fetch_one oracle2 url)
    ∧ (∀ (poracle : String → Nat → GetResult) (urls : List String) i
        (h : i < urls.length) (h2 : i < (fetch_pages poracle urls).length),
        (fetch_pages poracle urls).get ⟨i, h2⟩
          = fetch_one (poracle (urls.get ⟨i, h⟩)) (urls.get ⟨i, h⟩)) := by
  refine ⟨?_, ?_, ?_, ?_⟩
  · intro k st cl text hk h429 hsucc h200 h299 hcl htext
    unfold fetch_one
    rw [fetchOneGo_skip429 oracle url k 0 MAX_RETRIES (le_of_lt hk)
      (by simpa using h429)]
    obtain ⟨m, hm⟩ : ∃ m, MAX_RETRIES - k = m + 1 :=
      ⟨MAX_RETRIES - k - 1, by omega⟩
    rw [Nat.zero_add, hm]
    simp only [fetchOneGo, hsucc]
    rw [if_neg (by omega : ¬ st = 429)]
    rw [if_neg (not_not_intro ⟨h200, h299⟩)]
    rw [if_neg (by omega : ¬ cl.getD 0 > MAX_RESPONSE_SIZE)]
    rw [if_neg (by omega : ¬ text.length > MAX_RESPONSE_SIZE)]
    simp [addWaits]
  · intro h429
    unfold fetch_one
    rw [fetchOneGo_skip429 oracle url MAX_RETRIES 0 MAX_RETRIES le_rfl
      (by simpa using h429)]
    rfl
  · intro hag
    unfold fetch_one
    exact fetchOneGo_congr oracle oracle2 url MAX_RETRIES 0 (by simpa using hag)
  · intro poracle urls i h h2
    simp only [fetch_pages, List.get_map]

/-- Witness for C6: three 429s then a success return the content after
backoffs of 10, 20 and 30 seconds. -/
theorem spec_C6_witness :
    fetch_one
        (fun i => if i < 3 then GetResult.ok 429 none "x"
          else GetResult.ok 200 (some 5) "hello") "u"
      = ⟨"u", some "hello", none, [10, 20, 30]⟩ := by
  have h := (spec_C6
      (fun i => if i < 3 then GetResult.ok 429 none "x"
        else GetResult.ok 200 (some 5) "hello")
      (fun i => if i < 3 then GetResult.ok 429 none "x"
        else GetResult.ok 200 (some 5) "hello") "u").1
      3 200 (some 5) "hello" (by decide) (by decide) (by decide)
      (by decide) (by decide) (by decide) (by decide)
  exact h.trans (by rfl)

/-- C10: `fetch_pages` returns one result per input URL, aligned with the
submission order (`asyncio.gather` preserves task order), and every result
carries exactly one of html content or an error string. -/
theorem spec_C10 (oracle : String → Nat → GetResult) (urls : List String) :
    (fetch_pages oracle urls).length = urls.length
    ∧ (∀ i (h : i < urls.length) (h2 : i < (fetch_pages oracle urls).length),
        ((fetch_pages oracle urls).get ⟨i, h2⟩).url = urls.get ⟨i, h⟩)
    ∧ (∀ out ∈ fetch_pages oracle urls,
        (out.html.isSome ∧ out.error = none)
        ∨ (out.html = none ∧ out.error.isSome)) := by
  refine ⟨by simp [fetch_pages], ?_, ?_⟩
  · intro i h h2
    simp only [fetch_pages, List.get_map]
    exact fetchOneGo_url _ _ _ _
  · intro out hmem
    simp only [fetch_pages, List.mem_map] at hmem
    obtain ⟨u, _, rfl⟩ := hmem
    exact fetchOneGo_exclusive (oracle u) u MAX_RETRIES 0

/-- Witness for C10: on a concrete two-URL fetch whose first URL raises, the
first result is still at position 0 and carries that URL. -/
theorem spec_C10_witness :
    ((fetch_pages (fun _ _ => GetResult.exc "boom") ["a", "b"]).get
        ⟨0, by decide⟩).url = (["a", "b"] : List String).get ⟨0, by decide⟩ :=
  (spec_C10 (fun _ _ => GetResult.exc "boom") ["a", "b"]).2.1 0
    (by decide) (by decide)

/-! ## HTML extractor (scripts/scrape_common.py, extract_mkdocs_content) -/

/-- One element child of the MkDocs content container, in document order:
a heading tag `h<level>` (with its `get_text(strip=True)` text and its `id`
attribute), or any other element, carrying its
`get_text(separator="\n", strip=True)` text. -/
inductive Elem where
  | heading (level : Nat) (text : String) (anchor : String)
  | block (text : String)
deriving Repr, DecidableEq

/-- The text a sibling element contributes to a section body
(`sibling.get_text(separator="\n", strip=True)`). -/
def elemText : Elem → String
  | Elem.heading _ t _ => t
  | Elem.block t => t

/-- The scan break condition of the section loop:
`sibling.name in ("h1", "h2", "h3", "h4")`. -/
def isBreakHeading : Elem → Bool
  | Elem.heading l _ _ => decide (1 ≤ l ∧ l ≤ 4)
  | Elem.block _ => false

/-- A `sections` record as produced by the extractors. -/
structure SectionRec where
  heading : String
  level : Nat
  content : String
  anchor : String
deriving Repr, DecidableEq

/-- The section loop of `extract_mkdocs_content`: scan h2/h3/h4 headings in
document order; each section body is the joined text of the following
sibling elements up to (excluding) the next h1/h2/h3/h4 sibling. -/
def extract_mkdocs_sections : List Elem → List SectionRec
  | [] => []
  | Elem.heading l t a :: rest =>
    if l = 2 ∨ l = 3 ∨ l = 4 then
      { heading := stripPilcrow t, level := l,
        content :=
          joinNl ((rest.takeWhile (fun e => ¬ isBreakHeading e)).map elemText),
        anchor := a } :: extract_mkdocs_sections rest
    else
      extract_mkdocs_sections rest
  | Elem.block _ :: rest => extract_mkdocs_sections rest

/-- The claim's reading of the section body: joined text of the elements
between the heading and the next heading of equal-or-higher level (a
strictly deeper heading and the content under it stay inside the body). -/
def claimSectionsEqOrHigher : List Elem → List SectionRec
  | [] => []
  | Elem.heading l t a :: rest =>
    if l = 2 ∨ l = 3 ∨ l = 4 then
      { heading := stripPilcrow t, level := l,
        content :=
          joinNl ((rest.takeWhile (fun e =>
            match e with
            | Elem.heading l2 _ _ => decide (l < l2)
            | Elem.block _ => true)).map elemText),
        anchor := a } :: claimSectionsEqOrHigher rest
    else
      claimSectionsEqOrHigher rest
  | Elem.block _ :: rest => claimSectionsEqOrHigher rest

/-- Index-based restatement of the amended claim: the i-th element, when it
is an h2/h3/h4 heading, yields a section whose body is the joined text of
the elements strictly between position i and the next h1..h4 element. -/
def specSectionsAnyHeading (doc : List Elem) : List SectionRec :=
  (List.range doc.length).filterMap (fun i =>
    match doc.get? i with
    | some (Elem.heading l t a) =>
      if l = 2 ∨ l = 3 ∨ l = 4 then
        some { heading := stripPilcrow t, level := l,
               content := joinNl
                 (((doc.drop (i + 1)).takeWhile
                   (fun e => ¬ isBreakHeading e)).map elemText),
               anchor := a }
      else none
    | _ => none)

theorem specSectionsAnyHeading_cons (e : Elem) (rest : List Elem) :
    specSectionsAnyHeading (e :: rest) =
      (match e with
       | Elem.heading l t a =>
         if l = 2 ∨ l = 3 ∨ l = 4 then
           [{ heading := stripPilcrow t, level := l,
              content := joinNl ((rest.takeWhile
                (fun x => ¬ isBreakHeading x)).map elemText),
              anchor := a }]
         else []
       | Elem.block _ => []) ++ specSectionsAnyHeading rest := by
  have htail : List.filterMap
      ((fun i =>
        match (e :: rest).get? i with
        | some (Elem.heading l t a) =>
          if l = 2 ∨ l = 3 ∨ l = 4 then
            some { heading := stripPilcrow t, level := l,
                   content := joinNl
                     ((((e :: rest).drop (i + 1)).takeWhile
                       (fun x => ¬ isBreakHeading x)).map elemText),
                   anchor := a }
          else none
        | _ => none) ∘ Nat.succ) (List.range rest.length)
      = specSectionsAnyHeading rest := by
    apply List.filterMap_congr
    intro i _
    rfl
  cases e with
  | heading l t a =>
    by_cases hl : l = 2 ∨ l = 3 ∨ l = 4
    · simp only [specSectionsAnyHeading, List.length_cons,
        List.range_succ_eq_map, List.filterMap_cons, List.filterMap_map,
        List.get?_cons_zero, List.drop_succ_cons, List.drop_zero,
        if_pos hl, htail]
      rfl
    · simp only [specSectionsAnyHeading, List.length_cons,
        List.range_succ_eq_map, List.filterMap_cons, List.filterMap_map,
        List.get?_cons_zero, List.drop_succ_cons, List.drop_zero,
        if_neg hl, htail]
      rfl
  | block t =>
    simp only [specSectionsAnyHeading, List.length_cons,
      List.range_succ_eq_map, List.filterMap_cons, List.filterMap_map,
      List.get?_cons_zero, htail]
    rfl

/-- C3 counterexample: with a paragraph under a deeper h3 between two
sections, the extractor closes the h2 section at the h3 boundary, so the
paragraph under the sub-heading is not part of the enclosing section's body
as the claim requires. -/
theorem spec_C3_counterexample :
    (extract_mkdocs_sections
        [Elem.heading 2 "A" "a", Elem.block "p1",
         Elem.heading 3 "B" "b", Elem.block "p2"]).map SectionRec.content
      = ["p1", "p2"]
    ∧ (claimSectionsEqOrHigher
        [Elem.heading 2 "A" "a", Elem.block "p1",
         Elem.heading 3 "B" "b", Elem.block "p2"]).map SectionRec.content
      = ["p1\nB\np2", "p2"]
    ∧ extract_mkdocs_sections
        [Elem.heading 2 "A" "a", Elem.block "p1",
         Elem.heading 3 "B" "b", Elem.block "p2"]
      ≠ claimSectionsEqOrHigher
        [Elem.heading 2 "A" "a", Elem.block "p1",
         Elem.heading 3 "B" "b", Elem.block "p2"] := by
  refine ⟨by decide, by decide, by decide⟩

/-- C3 (amended): for every input document, every section's body is exactly
the joined text of the elements strictly between its heading and the next
heading of any level h1..h4 — content under a deeper sub-heading belongs
only to the sub-heading's own section, never to the enclosing one. -/
theorem spec_C3 (doc : List Elem) :
    extract_mkdocs_sections doc = specSectionsAnyHeading doc := by
  induction doc with
  | nil => rfl
  | cons e rest ih =>
    rw [specSectionsAnyHeading_cons]
    cases e with
    | heading l t a =>
      by_cases hl : l = 2 ∨ l = 3 ∨ l = 4
      · simp only [extract_mkdocs_sections, if_pos hl, ih]
        rfl
      · simp only [extract_mkdocs_sections, if_neg hl, ih]
        rfl
    | block t =>
      simp only [extract_mkdocs_sections, ih]
      rfl

/-! ## Markdown extractor (scripts/scrape_nodes_github.py, parse_markdown) -/

/-- A `code_examples` record as produced by the extractors. -/
structure ExampleRec where
  language : String
  code : String
  context : String
deriving Repr, DecidableEq

/-- The heading regex `^(#{1,4})\s+(.+)` applied to one line, returning the
heading level and `group(2).strip()`.  The regex matches exactly when 1-4
hashes are followed by a whitespace character and at least one further
character of any kind (with backtracking, `\s+` then `.+` succeed on any
remainder that starts with whitespace and has length at least two — a
whitespace-only remainder like `"##  "` does match, with empty stripped
text); in every matched case `group(2).strip()` equals the stripped
remainder. -/
def mdHeading (line : String) : Option (Nat × String) :=
  let n := (line.data.takeWhile (fun c => c = '#')).length
  let rest : String := ⟨line.data.drop n⟩
  let startsWs := match rest.data with
    | c :: _ => c.isWhitespace
    | [] => false
  if 1 ≤ n ∧ n ≤ 4 ∧ startsWs = true ∧ 2 ≤ rest.data.length then
    some (n, pyStrip rest)
  else
    none

/-- The anchor derivation
`re.sub(r"[^\w\s-]", "", heading_text.lower()).replace(" ", "-")`. -/
def mdAnchor (heading : String) : String :=
  pyReplace
    ⟨(lowerStr heading).data.filter
      (fun c => c.isAlphanum ∨ c = '_' ∨ c.isWhitespace ∨ c = '-')⟩
    " " "-"

/-- The loop state of `parse_markdown`: the title found so far, the closed
sections, the open section (still appended-to), the accumulated body lines
of the open region, the fence state, and the code-block accumulator. -/
structure MdState where
  title : String
  sections : List SectionRec
  cur : Option SectionRec
  textParts : List String
  inCode : Bool
  codeLang : String
  codeLines : List String
  examples : List ExampleRec
deriving Repr, DecidableEq

/-- Close the open section: `if current_section and text_parts:
current_section["content"] = "\n".join(text_parts).strip()`.  The Python
code mutates the dict already appended to `sections`, so the model appends
the (possibly content-updated) open section here. -/
def closeSection (cur : Option SectionRec) (parts : List String)
    (done : List SectionRec) : List SectionRec :=
  match cur with
  | none => done
  | some c =>
    done ++
      [if parts ≠ [] then { c with content := pyStrip (joinNl parts) } else c]

/-- One iteration of the `for line in lines` loop of `parse_markdown`. -/
def mdStep (st : MdState) (line : String) : MdState :=
  if pyStartsWith line "```" then
    if st.inCode then
      let codeText := joinNl st.codeLines
      let examples :=
        if pyStrip codeText ≠ "" then
          st.examples ++
            [{ language := if st.codeLang = "" then "python" else st.codeLang,
               code := codeText,
               context := (match st.cur with
                 | some c => c.heading
                 | none => "") }]
        else st.examples
      { st with examples := examples, codeLines := [], inCode := false }
    else
      -- `line.lstrip("`").strip().split()[0]`: the stripped text starts
      -- with a non-whitespace character, so its first whitespace-split
      -- token is its longest non-whitespace prefix.
      let stripped := pyStrip ⟨line.data.dropWhile (fun c => c = '`')⟩
      { st with
        inCode := true,
        codeLang :=
          if stripped = "" then "python"
          else ⟨stripped.data.takeWhile (fun c => ¬ c.isWhitespace)⟩ }
  else if st.inCode then
    { st with codeLines := st.codeLines ++ [line] }
  else
    match mdHeading line with
    | some (level, text) =>
      if level = 1 ∧ st.title = "" then
        { st with title := text }
      else
        { st with
          sections := closeSection st.cur st.textParts st.sections,
          cur := some { heading := text, level := level, content := "",
                        anchor := mdAnchor text },
          textParts := [] }
    | none => { st with textParts := st.textParts ++ [line] }

/-- The result shape of `parse_markdown` (the `content_text` field is the
whole input and is left implicit). -/
structure MdParse where
  title : String
  sections : List SectionRec
  examples : List ExampleRec
deriving Repr, DecidableEq

/-- `parse_markdown(content)`. -/
def parse_markdown (content : String) : MdParse :=
  let st := (pySplitLines content).foldl mdStep
    { title := "", sections := [], cur := none, textParts := [],
      inCode := false, codeLang := "", codeLines := [], examples := [] }
  { title := st.title,
    sections := closeSection st.cur st.textParts st.sections,
    examples := st.examples }

/-- The first level-1 heading outside code fences whose stripped text is
non-empty, scanning with the given fence state: per the amended claim this
is what ends up as the title.  A matched level-1 heading line with empty
stripped text (e.g. `"#  "`) encountered while the title is still unset is
consumed by the title branch but assigns the empty string, leaving the
title unset. -/
def firstH1 : List String → Bool → Option String
  | [], _ => none
  | line :: rest, inCode =>
    if pyStartsWith line "```" then firstH1 rest (!inCode)
    else if inCode then firstH1 rest inCode
    else
      match mdHeading line with
      | some lt =>
        if lt.1 = 1 then
          if lt.2 ≠ "" then some lt.2 else firstH1 rest inCode
        else firstH1 rest inCode
      | none => firstH1 rest inCode

/-- Count of heading-regex lines outside code fences. -/
def headingLineCount : List String → Bool → Nat
  | [], _ => 0
  | line :: rest, inCode =>
    if pyStartsWith line "```" then headingLineCount rest (!inCode)
    else if inCode then headingLineCount rest inCode
    else
      match mdHeading line with
      | some _ => 1 + headingLineCount rest inCode
      | none => headingLineCount rest inCode

/-- Count of the level-1 heading lines outside code fences that the title
branch consumes (without emitting a section): every level-1 heading line up
to and including the first one with non-empty stripped text — that one sets
the title and stops the consumption; empty-text ones assign `""` and leave
the title unset. -/
def consumedH1Count : List String → Bool → Nat
  | [], _ => 0
  | line :: rest, inCode =>
    if pyStartsWith line "```" then consumedH1Count rest (!inCode)
    else if inCode then consumedH1Count rest inCode
    else
      match mdHeading line with
      | some lt =>
        if lt.1 = 1 then
          if lt.2 ≠ "" then 1 else 1 + consumedH1Count rest inCode
        else consumedH1Count rest inCode
      | none => consumedH1Count rest inCode

theorem mdFold_title (lines : List String) :
    ∀ st : MdState, (List.foldl mdStep st lines).title
      = if st.title = "" then (firstH1 lines st.inCode).getD ""
        else st.title := by
  induction lines with
  | nil =>
    intro st
    by_cases h : st.title = "" <;> simp [firstH1, h]
  | cons line rest ih =>
    intro st
    rw [List.foldl_cons]
    by_cases hf : pyStartsWith line "```" = true
    · by_cases hic : st.inCode = true
      · have hstep : mdStep st line
            = { st with
                examples :=
                  if pyStrip (joinNl st.codeLines) ≠ "" then
                    st.examples ++
                      [{ language :=
                           if st.codeLang = "" then "python" else st.codeLang,
                         code := joinNl st.codeLines,
                         context := (match st.cur with
                           | some c => c.heading
                           | none => "") }]
                  else st.examples,
                codeLines := [], inCode := false } := by
          rw [mdStep, if_pos hf, if_pos hic]
        rw [hstep, ih]
        simp only [firstH1, if_pos hf, hic]
        rfl
      · have hic2 : st.inCode = false := by
          cases h : st.inCode
          · rfl
          · exact absurd h hic
        have hstep : mdStep st line
            = { st with
                inCode := true,
                codeLang :=
                  if pyStrip ⟨line.data.dropWhile (fun c => c = '`')⟩ = ""
                  then "python"
                  else ⟨(pyStrip
                    ⟨line.data.dropWhile (fun c => c = '`')⟩).data.takeWhile
                      (fun c => ¬ c.isWhitespace)⟩ } := by
          rw [mdStep, if_pos hf, if_neg (by simp [hic2])]
        rw [hstep, ih]
        simp only [firstH1, if_pos hf, hic2]
        rfl
    · by_cases hic : st.inCode = true
      · have hstep : mdStep st line
            = { st with codeLines := st.codeLines ++ [line] } := by
          rw [mdStep, if_neg hf, if_pos hic]
        rw [hstep, ih]
        simp only [firstH1, if_neg hf, hic]
        rfl
      · have hic2 : st.inCode = false := by
          cases h : st.inCode
          · rfl
          · exact absurd h hic
        cases hml : mdHeading line with
        | none =>
          have hstep : mdStep st line
              = { st with textParts := st.textParts ++ [line] } := by
            rw [mdStep, if_neg hf, if_neg (by simp [hic2])]
            rw [hml]
          rw [hstep, ih]
          simp only [firstH1, if_neg hf, hic2, hml]
          rfl
        | some lt =>
          obtain ⟨level, text⟩ := lt
          by_cases hlv : level = 1 ∧ st.title = ""
          · have hstep : mdStep st line = { st with title := text } := by
              rw [mdStep, if_neg hf, if_neg (by simp [hic2])]
              rw [hml]
              simp only [if_pos hlv]
            rw [hstep, ih]
            by_cases htext : text = ""
            · simp [firstH1, hf, hic2, hml, hlv.1, hlv.2, htext]
            · simp [firstH1, hf, hic2, hml, hlv.1, hlv.2, htext]
          · have hstep : mdStep st line
                = { st with
                    sections := closeSection st.cur st.textParts st.sections,
                    cur := some { heading := text, level := level,
                                  content := "", anchor := mdAnchor text },
                    textParts := [] } := by
              rw [mdStep, if_neg hf, if_neg (by simp [hic2])]
              rw [hml]
              simp only [if_neg hlv]
            rw [hstep, ih]
            simp only [firstH1, if_neg hf, hic2, hml]
            by_cases hl1 : level = 1
            · have htne : ¬ st.title = "" := by
                intro hime
                exact hlv ⟨hl1, hime⟩
              simp [hl1, htne]
            · simp [hl1]

theorem closeSection_length (cur : Option SectionRec) (parts : List String)
    (done : List SectionRec) :
    (closeSection cur parts done).length
      = done.length + (if cur.isSome then 1 else 0) := by
  cases cur <;> simp [closeSection]

theorem mdFold_sections (lines : List String) :
    ∀ st : MdState,
      (closeSection (List.foldl mdStep st lines).cur
          (List.foldl mdStep st lines).textParts
          (List.foldl mdStep st lines).sections).length
        + (if st.title = "" then consumedH1Count lines st.inCode else 0)
      = st.sections.length + (if st.cur.isSome then 1 else 0)
        + headingLineCount lines st.inCode := by
  induction lines with
  | nil =>
    intro st
    simp [consumedH1Count, headingLineCount, closeSection_length]
  | cons line rest ih =>
    intro st
    rw [List.foldl_cons]
    by_cases hf : pyStartsWith line "```" = true
    · by_cases hic : st.inCode = true
      · have hstep : mdStep st line
            = { st with
                examples :=
                  if pyStrip (joinNl st.codeLines) ≠ "" then
                    st.examples ++
                      [{ language :=
                           if st.codeLang = "" then "python" else st.codeLang,
                         code := joinNl st.codeLines,
                         context := (match st.cur with
                           | some c => c.heading
                           | none => "") }]
                  else st.examples,
                codeLines := [], inCode := false } := by
          rw [mdStep, if_pos hf, if_pos hic]
        rw [hstep]
        have hih := ih { st with
          examples :=
            if pyStrip (joinNl st.codeLines) ≠ "" then
              st.examples ++
                [{ language :=
                     if st.codeLang = "" then "python" else st.codeLang,
                   code := joinNl st.codeLines,
                   context := (match st.cur with
                     | some c => c.heading
                     | none => "") }]
            else st.examples,
          codeLines := [], inCode := false }
        simp [consumedH1Count, headingLineCount, hf, hic] at hih ⊢
        omega
      · have hic2 : st.inCode = false := by
          cases h : st.inCode
          · rfl
          · exact absurd h hic
        have hstep : mdStep st line
            = { st with
                inCode := true,
                codeLang :=
                  if pyStrip ⟨line.data.dropWhile (fun c => c = '`')⟩ = ""
                  then "python"
                  else ⟨(pyStrip
                    ⟨line.data.dropWhile (fun c => c = '`')⟩).data.takeWhile
                      (fun c => ¬ c.isWhitespace)⟩ } := by
          rw [mdStep, if_pos hf, if_neg (by simp [hic2])]
        rw [hstep]
        have hih := ih { st with
          inCode := true,
          codeLang :=
            if pyStrip ⟨line.data.dropWhile (fun c => c = '`')⟩ = ""
            then "python"
            else ⟨(pyStrip
              ⟨line.data.dropWhile (fun c => c = '`')⟩).data.takeWhile
                (fun c => ¬ c.isWhitespace)⟩ }
        simp [consumedH1Count, headingLineCount, hf, hic2] at hih ⊢
        omega
    · by_cases hic : st.inCode = true
      · have hstep : mdStep st line
            = { st with codeLines := st.codeLines ++ [line] } := by
          rw [mdStep, if_neg hf, if_pos hic]
        rw [hstep]
        have hih := ih { st with codeLines := st.codeLines ++ [line] }
        simp [consumedH1Count, headingLineCount, hf, hic] at hih ⊢
        omega
      · have hic2 : st.inCode = false := by
          cases h : st.inCode
          · rfl
          · exact absurd h hic
        cases hml : mdHeading line with
        | none =>
          have hstep : mdStep st line
              = { st with textParts := st.textParts ++ [line] } := by
            rw [mdStep, if_neg hf, if_neg (by simp [hic2])]
            rw [hml]
          rw [hstep]
          have hih := ih { st with textParts := st.textParts ++ [line] }
          simp [consumedH1Count, headingLineCount, hf, hic2, hml] at hih ⊢
          omega
        | some lt =>
          obtain ⟨level, text⟩ := lt
          by_cases hlv : level = 1 ∧ st.title = ""
          · have hstep : mdStep st line = { st with title := text } := by
              rw [mdStep, if_neg hf, if_neg (by simp [hic2])]
              rw [hml]
              simp only [if_pos hlv]
            rw [hstep]
            have hih := ih { st with title := text }
            by_cases htext : text = ""
            · simp [consumedH1Count, headingLineCount, hf, hic2, hml,
                hlv.1, hlv.2, htext] at hih ⊢
              omega
            · simp [consumedH1Count, headingLineCount, hf, hic2, hml,
                hlv.1, hlv.2, htext] at hih ⊢
              omega
          · have hstep : mdStep st line
                = { st with
                    sections := closeSection st.cur st.textParts st.sections,
                    cur := some { heading := text, level := level,
                                  content := "", anchor := mdAnchor text },
                    textParts := [] } := by
              rw [mdStep, if_neg hf, if_neg (by simp [hic2])]
              rw [hml]
              simp only [if_neg hlv]
            rw [hstep]
            have hih := ih { st with
              sections := closeSection st.cur st.textParts st.sections,
              cur := some { heading := text, level := level,
                            content := "", anchor := mdAnchor text },
              textParts := [] }
            by_cases hl1 : level = 1
            · have htne : ¬ st.title = "" := fun hime => hlv ⟨hl1, hime⟩
              simp [consumedH1Count, headingLineCount, hf, hic2, hml, hl1,
                htne, closeSection_length] at hih ⊢
              omega
            · simp [consumedH1Count, headingLineCount, hf, hic2, hml, hl1,
                closeSection_length] at hih ⊢
              omega

/-- C4 counterexample: in `"## A\n# T"` the level-1 heading appears after
another heading, yet it still becomes the title (the claim requires that a
level-1 heading appearing after some other heading not become the title). -/
theorem spec_C4_counterexample :
    (parse_markdown "## A\n# T").title = "T"
    ∧ (parse_markdown "## A\n# T").sections
        = [{ heading := "A", level := 2, content := "", anchor := "a" }]
    ∧ ¬ (parse_markdown "## A\n# T").title = "" := by
  refine ⟨by decide, by decide, by decide⟩

/-- C4 (amended): for every input, the title is the first level-1 heading
outside code fences whose stripped text is non-empty — whether or not other
headings precede it (the guard is only that the title is still unset, and
an empty-text level-1 heading assigns the empty string, leaving it unset) —
and the title branch emits no section: the number of emitted sections is
the number of matched heading lines outside code fences minus the level-1
heading lines the title branch consumed (every level-1 heading line up to
and including the first one with non-empty text). -/
theorem spec_C4 (content : String) :
    (parse_markdown content).title
      = (firstH1 (pySplitLines content) false).getD ""
    ∧ (parse_markdown content).sections.length
        + consumedH1Count (pySplitLines content) false
      = headingLineCount (pySplitLines content) false := by
  constructor
  · have h := mdFold_title (pySplitLines content)
      { title := "", sections := [], cur := none, textParts := [],
        inCode := false, codeLang := "", codeLines := [], examples := [] }
    simpa [parse_markdown] using h
  · have h := mdFold_sections (pySplitLines content)
      { title := "", sections := [], cur := none, textParts := [],
        inCode := false, codeLang := "", codeLines := [], examples := [] }
    simpa [parse_markdown] using h

/-! ## Corpus store (src/griptape_mcp/db.py, SCHEMA_SQL) -/

/-- A `pages` row. -/
structure PageRow where
  id : Nat
  url : String
  source : String
  title : String
  content : String
  contentHtml : String
  breadcrumbs : String
  lastModified : Option String
deriving Repr, DecidableEq

/-- A `sections` row (`page_id REFERENCES pages(id) ON DELETE CASCADE`). -/
structure SectionRow where
  id : Nat
  pageId : Nat
  heading : String
  level : Nat
  content : String
  anchor : String
deriving Repr, DecidableEq

/-- A `code_examples` row (`page_id ... ON DELETE CASCADE`,
`section_id ... ON DELETE SET NULL`). -/
structure CodeExampleRow where
  id : Nat
  pageId : Nat
  sectionId : Option Nat
  language : String
  code : String
  context : String
deriving Repr, DecidableEq

/-- A `nodes` row (`page_id ... ON DELETE SET NULL`). -/
structure NodeRow where
  id : Nat
  name : String
  displayName : String
  category : String
  description : Option String
  pageId : Option Nat
deriving Repr, DecidableEq

/-- A `pages_fts` index entry over `(title, content)`. -/
structure PagesFtsRow where
  rowid : Nat
  title : String
  content : String
deriving Repr, DecidableEq

/-- A `sections_fts` index entry over `(heading, content)`. -/
structure SectionsFtsRow where
  rowid : Nat
  heading : String
  content : String
deriving Repr, DecidableEq

/-- The SQLite database of SCHEMA_SQL: the four tables, the two
external-content FTS tables maintained by the triggers, and the
AUTOINCREMENT counters (ids are never reused). -/
structure DB where
  pages : List PageRow
  sections : List SectionRow
  codeExamples : List CodeExampleRow
  nodes : List NodeRow
  pagesFts : List PagesFtsRow
  sectionsFts : List SectionsFtsRow
  nextPageId : Nat
  nextSectionId : Nat
  nextCodeExampleId : Nat
  nextNodeId : Nat
deriving Repr, DecidableEq

/-- A freshly initialized database (`init_db`). -/
def emptyDB : DB := ⟨[], [], [], [], [], [], 1, 1, 1, 1⟩

/-- Does the optional foreign key hit one of the listed ids? -/
def optMem (o : Option Nat) (ids : List Nat) : Bool :=
  match o with
  | some x => decide (x ∈ ids)
  | none => false

/-- `INSERT OR REPLACE INTO pages (url, source, title, content,
content_html, breadcrumbs, last_modified) VALUES (...)` as executed by the
scrapers under `PRAGMA foreign_keys=ON` and the default
`PRAGMA recursive_triggers=OFF`.  Per SQLite semantics: the conflicting row
(same UNIQUE url) is deleted; that delete runs the ON DELETE CASCADE on
sections and code_examples and ON DELETE SET NULL on nodes, and the cascade
deletions fire the child delete triggers (cleaning sections_fts), but the
replaced pages row itself fires no delete trigger, so its pages_fts entry
survives; the inserted row gets a fresh AUTOINCREMENT id and fires the
pages insert trigger.  Returns the new state and `cursor.lastrowid`. -/
def insertOrReplacePage (db : DB) (url source title content contentHtml
    breadcrumbs : String) (lastModified : Option String) : DB × Nat :=
  let oldIds := (db.pages.filter (fun p => decide (p.url = url))).map PageRow.id
  let deadSectionIds := (db.sections.filter
    (fun s => decide (s.pageId ∈ oldIds))).map SectionRow.id
  let newId := db.nextPageId
  let newRow : PageRow :=
    ⟨newId, url, source, title, content, contentHtml, breadcrumbs,
      lastModified⟩
  ({ db with
      pages := db.pages.filter (fun p => !decide (p.url = url)) ++ [newRow],
      sections := db.sections.filter (fun s => !decide (s.pageId ∈ oldIds)),
      sectionsFts := db.sectionsFts.filter
        (fun r => !decide (r.rowid ∈ deadSectionIds)),
      codeExamples := (db.codeExamples.filter
        (fun e => !decide (e.pageId ∈ oldIds))).map
          (fun e => if optMem e.sectionId deadSectionIds then
              { e with sectionId := none }
            else e),
      nodes := db.nodes.map (fun n =>
        if optMem n.pageId oldIds then { n with pageId := none } else n),
      pagesFts := db.pagesFts ++ [⟨newId, title, content⟩],
      nextPageId := newId + 1 },
    newId)

/-- `INSERT INTO sections (page_id, heading, level, content, anchor)`; the
`sections_ai` trigger mirrors the row into sections_fts. -/
def insertSection (db : DB) (pageId : Nat) (heading : String) (level : Nat)
    (content anchor : String) : DB :=
  { db with
    sections := db.sections ++
      [⟨db.nextSectionId, pageId, heading, level, content, anchor⟩],
    sectionsFts := db.sectionsFts ++ [⟨db.nextSectionId, heading, content⟩],
    nextSectionId := db.nextSectionId + 1 }

/-- `INSERT INTO code_examples (page_id, section_id, language, code,
context)`. -/
def insertCodeExample (db : DB) (pageId : Nat) (sectionId : Option Nat)
    (language code context : String) : DB :=
  { db with
    codeExamples := db.codeExamples ++
      [⟨db.nextCodeExampleId, pageId, sectionId, language, code, context⟩],
    nextCodeExampleId := db.nextCodeExampleId + 1 }

/-- `INSERT INTO nodes (name, display_name, category, description,
page_id)`. -/
def insertNode (db : DB) (name displayName category : String)
    (description : Option String) (pageId : Option Nat) : DB :=
  { db with
    nodes := db.nodes ++
      [⟨db.nextNodeId, name, displayName, category, description, pageId⟩],
    nextNodeId := db.nextNodeId + 1 }

/-- `SELECT id FROM sections WHERE page_id = ? AND heading = ? LIMIT 1`
(first row in table order). -/
def lookupSectionId (db : DB) (pageId : Nat) (heading : String) :
    Option Nat :=
  (db.sections.find?
    (fun s => decide (s.pageId = pageId) && decide (s.heading = heading))).map
    SectionRow.id

/-- The per-page write block shared by the scrape loops: the upsert of the
pages row, then one `INSERT INTO sections` per extracted section, then one
`INSERT INTO code_examples` per extracted example with the best-effort
section link (`if ex.get("context")`, exact heading match).  The
`sqlite3.IntegrityError` handler of the loops cannot fire here: the child
tables have no unique constraints and the page write resolves its only
conflict by REPLACE. -/
def writePageWithChildren (db : DB) (url source title content contentHtml
    breadcrumbsStr : String) (lastmod : Option String)
    (sections : List SectionRec) (examples : List ExampleRec) : DB × Nat :=
  let upserted := insertOrReplacePage db url source title content
    contentHtml breadcrumbsStr lastmod
  let pageId := upserted.2
  let db2 := sections.foldl
    (fun d s => insertSection d pageId s.heading s.level s.content s.anchor)
    upserted.1
  let db3 := examples.foldl
    (fun d ex =>
      let sectionId :=
        if ex.context ≠ "" then lookupSectionId d pageId ex.context else none
      insertCodeExample d pageId sectionId ex.language ex.code ex.context)
    db2
  (db3, pageId)

/-- The per-run counters of a scrape. -/
structure Stats where
  pages : Nat
  sections : Nat
  codeExamples : Nat
  nodes : Nat
  errors : Nat
deriving Repr, DecidableEq

/-- The `data` dict produced by `extract_mkdocs_content`. -/
structure Extracted where
  title : String
  contentText : String
  contentHtml : String
  breadcrumbs : List String
  sections : List SectionRec
  codeExamples : List ExampleRec
deriving Repr, DecidableEq

/-- One iteration of the `for page in pages` loop of
`scrape_framework.scrape` (lines 43..94): a fetch error counts an error and
writes nothing; an empty extracted title silently skips; otherwise the page
and its children are written and counted. -/
def frameworkStep (extract : String → Extracted)
    (lastmod : String → Option String) (acc : DB × Stats)
    (page : FetchOut) : DB × Stats :=
  match page.error with
  | some _ => (acc.1, { acc.2 with errors := acc.2.errors + 1 })
  | none =>
    let data := extract (page.html.getD "")
    if data.title = "" then acc
    else
      let written := writePageWithChildren acc.1 page.url "framework"
        data.title data.contentText data.contentHtml
        (jsonDumpsList data.breadcrumbs) (lastmod page.url)
        data.sections data.codeExamples
      (written.1,
        { acc.2 with
          pages := acc.2.pages + 1,
          sections := acc.2.sections + data.sections.length,
          codeExamples := acc.2.codeExamples + data.codeExamples.length })

/-- The whole write loop of `scrape_framework.scrape`. -/
def frameworkProcess (extract : String → Extracted)
    (lastmod : String → Option String) (db : DB) (stats : Stats)
    (pages : List FetchOut) : DB × Stats :=
  pages.foldl (frameworkStep extract lastmod) (db, stats)

/-! ## GitHub markdown scraper (scripts/scrape_nodes_github.py) -/

/-- Split on a non-empty string pattern (Python `str.split(pat)` /
`re`-free segmenting). -/
def pySplitOn (s pat : String) : List String :=
  (splitOnStrGo pat.data s.data.length s.data).map (fun l => (⟨l⟩ : String))

/-- Take the first n characters (`s[:n]`). -/
def pyTake (n : Nat) (s : String) : String :=
  ⟨s.data.take n⟩

/-- `BASE_DOCS_URL` of scrape_nodes_github.py. -/
def BASE_DOCS_URL : String := "https://docs.griptapenodes.com/en/stable"

/-- `path_to_docs_url(file_path)`:
`docs/nodes/image/load_image.md -> {BASE_DOCS_URL}/nodes/image/load_image/`. -/
def path_to_docs_url (filePath : String) : String :=
  let rel := pyReplace (pyReplace filePath "docs/" "") ".md" ""
  if rel = "index" then BASE_DOCS_URL ++ "/"
  else BASE_DOCS_URL ++ "/" ++ rel ++ "/"

/-- The filename-fallback title of the GitHub scraper:
`result["name"].replace(".md", "").replace("_", " ").title()`. -/
def githubFallbackTitle (name : String) : String :=
  pyTitle (pyReplace (pyReplace name ".md" "") "_" " ")

/-- `CATEGORY_MAP` of scrape_nodes_github.py. -/
def CATEGORY_MAP : List (String × String) :=
  [("agents", "Agents"), ("audio", "Audio"), ("config", "Config"),
   ("convert", "Convert"), ("dict", "Dict"), ("execution", "Execution"),
   ("image", "Image"), ("json", "JSON"), ("lists", "Lists"),
   ("misc", "Misc"), ("number", "Number"), ("rules", "Rules"),
   ("text", "Text"), ("three_d", "3D"), ("tools", "Tools"),
   ("video", "Video"),
   ("advanced_media_library", "Advanced Media Library"),
   ("workflows", "Workflows")]

/-- `CATEGORY_MAP.get(slug, slug.replace("_", " ").title())`. -/
def categoryFor (slug : String) : String :=
  match CATEGORY_MAP.find? (fun p => decide (p.1 = slug)) with
  | some p => p.2
  | none => pyTitle (pyReplace slug "_" " ")

/-- Word-characters test for one `\w+` group (ASCII view of `\w`). -/
def isWordStr (s : String) : Bool :=
  decide (s ≠ "") && s.data.all (fun c => c.isAlphanum || c = '_')

/-- The structured node info derived by `extract_node_info`. -/
structure NodeInfo where
  name : String
  displayName : String
  category : String
deriving Repr, DecidableEq

/-- `extract_node_info(file_path, title)`: the regex
`docs/nodes/(\w+)/(\w+)\.md$` modeled on the path's slash-separated
segments (exact for the GitHub API's `docs/...` paths); an `overview`
category slug is explicitly not a node. -/
def extract_node_info (filePath title : String) : Option NodeInfo :=
  match (pySplitOn filePath "/").reverse with
  | last :: categorySlug :: "nodes" :: "docs" :: _ =>
    if decide ("\x2emd".data.isSuffixOf last.data = true)
        && isWordStr ⟨last.data.take (last.data.length - 3)⟩
        && isWordStr categorySlug then
      if categorySlug = "overview" then none
      else
        let base : String := ⟨last.data.take (last.data.length - 3)⟩
        let fallbackName := pyTitle (pyReplace base "_" " ")
        some { name := if title = "" then fallbackName else title,
               displayName := if title = "" then fallbackName else title,
               category := categoryFor categorySlug }
    else none
  | _ => none

/-- One fetched markdown file of the GitHub scraper (`{**f, "content": ...,
"error": ...}`). -/
structure GhFile where
  path : String
  name : String
  content : Option String
  error : Option String
deriving Repr, DecidableEq

/-- One iteration of the `for result in results` loop of
`scrape_nodes_github.scrape` (lines 211..270): a fetch error counts an
error and writes nothing; an empty extracted title is replaced by the
filename-fallback title and the page is still written; a node row is
derived when the path matches the node-docs shape. -/
def githubStep (acc : DB × Stats) (f : GhFile) : DB × Stats :=
  match f.error with
  | some _ => (acc.1, { acc.2 with errors := acc.2.errors + 1 })
  | none =>
    let data := parse_markdown (f.content.getD "")
    let title :=
      if data.title = "" then githubFallbackTitle f.name else data.title
    let url := path_to_docs_url f.path
    let written := writePageWithChildren acc.1 url "nodes" title
      (f.content.getD "") "" "[]" none data.sections data.examples
    let statsAfterPage :=
      { acc.2 with
        pages := acc.2.pages + 1,
        sections := acc.2.sections + data.sections.length,
        codeExamples := acc.2.codeExamples + data.examples.length }
    match extract_node_info f.path title with
    | some ni =>
      (insertNode written.1 ni.name ni.displayName ni.category
        (if f.content.getD "" = "" then none
         else some (pyTake 500 (f.content.getD ""))) (some written.2),
        { statsAfterPage with nodes := statsAfterPage.nodes + 1 })
    | none => (written.1, statsAfterPage)

theorem secFold_pages (secs : List SectionRec) :
    ∀ (db : DB) (pid : Nat),
      (secs.foldl (fun d s =>
        insertSection d pid s.heading s.level s.content s.anchor) db).pages
      = db.pages := by
  induction secs with
  | nil => intro db pid; rfl
  | cons s rest ih =>
    intro db pid
    rw [List.foldl_cons, ih]
    rfl

theorem secFold_codeExamples (secs : List SectionRec) :
    ∀ (db : DB) (pid : Nat),
      (secs.foldl (fun d s =>
        insertSection d pid s.heading s.level s.content s.anchor)
          db).codeExamples
      = db.codeExamples := by
  induction secs with
  | nil => intro db pid; rfl
  | cons s rest ih =>
    intro db pid
    rw [List.foldl_cons, ih]
    rfl

theorem secFold_sections_mem (secs : List SectionRec) :
    ∀ (db : DB) (pid : Nat) (s : SectionRow),
      s ∈ (secs.foldl (fun d s =>
        insertSection d pid s.heading s.level s.content s.anchor)
          db).sections →
      s ∈ db.sections ∨ s.pageId = pid := by
  induction secs with
  | nil => intro db pid s hs; exact Or.inl hs
  | cons sec rest ih =>
    intro db pid s hs
    rw [List.foldl_cons] at hs
    rcases ih _ pid s hs with h | h
    · simp only [insertSection, List.mem_append, List.mem_singleton] at h
      rcases h with h | h
      · exact Or.inl h
      · right; rw [h]
    · exact Or.inr h

theorem exFold_pages (exs : List ExampleRec) :
    ∀ (db : DB) (pid : Nat),
      (exs.foldl (fun d ex => insertCodeExample d pid
        (if ex.context ≠ "" then lookupSectionId d pid ex.context else none)
        ex.language ex.code ex.context) db).pages
      = db.pages := by
  induction exs with
  | nil => intro db pid; rfl
  | cons ex rest ih =>
    intro db pid
    rw [List.foldl_cons, ih]
    rfl

theorem exFold_sections (exs : List ExampleRec) :
    ∀ (db : DB) (pid : Nat),
      (exs.foldl (fun d ex => insertCodeExample d pid
        (if ex.context ≠ "" then lookupSectionId d pid ex.context else none)
        ex.language ex.code ex.context) db).sections
      = db.sections := by
  induction exs with
  | nil => intro db pid; rfl
  | cons ex rest ih =>
    intro db pid
    rw [List.foldl_cons, ih]
    rfl

theorem exFold_examples_mem (exs : List ExampleRec) :
    ∀ (db : DB) (pid : Nat) (e : CodeExampleRow),
      e ∈ (exs.foldl (fun d ex => insertCodeExample d pid
        (if ex.context ≠ "" then lookupSectionId d pid ex.context else none)
        ex.language ex.code ex.context) db).codeExamples →
      e ∈ db.codeExamples ∨ e.pageId = pid := by
  induction exs with
  | nil => intro db pid e he; exact Or.inl he
  | cons ex rest ih =>
    intro db pid e he
    rw [List.foldl_cons] at he
    rcases ih _ pid e he with h | h
    · simp only [insertCodeExample, List.mem_append, List.mem_singleton] at h
      rcases h with h | h
      · exact Or.inl h
      · right; rw [h]
    · exact Or.inr h

theorem write_pages_eq (db : DB) (url source title content contentHtml
    bc : String) (lastmod : Option String) (sections : List SectionRec)
    (examples : List ExampleRec) :
    (writePageWithChildren db url source title content contentHtml bc
      lastmod sections examples).1.pages
    = db.pages.filter (fun p => !decide (p.url = url)) ++
      [⟨db.nextPageId, url, source, title, content, contentHtml, bc,
        lastmod⟩] := by
  simp only [writePageWithChildren]
  rw [exFold_pages, secFold_pages]
  rfl

theorem write_pages_view (db : DB) (url source title content contentHtml
    bc : String) (lastmod : Option String) (sections : List SectionRec)
    (examples : List ExampleRec) :
    ((writePageWithChildren db url source title content contentHtml bc
      lastmod sections examples).1.pages.filter
        (fun p => decide (p.url = url))).map (fun p => (p.title, p.content))
    = [(title, content)] := by
  rw [write_pages_eq, List.filter_append]
  have h1 : (db.pages.filter (fun p => !decide (p.url = url))).filter
      (fun p => decide (p.url = url)) = [] := by
    rw [List.filter_filter]
    apply List.filter_eq_nil_iff.2
    intro p _
    by_cases h : p.url = url <;> simp [h]
  rw [h1]
  simp

/-- C1: upserting a page whose URL already exists fully supersedes the
prior content: after the write exactly one pages row with that URL remains,
carrying the new title and content; no sections or code_examples row
referencing the replaced page's old surrogate id remains (the REPLACE
delete cascades to the old children before the new children are written
under the fresh id); and re-running the identical write yields the same
page content. -/
theorem spec_C1 (db : DB) (url source title content contentHtml bc : String)
    (lastmod : Option String) (sections : List SectionRec)
    (examples : List ExampleRec) (oldId : Nat)
    (hids : ∀ p ∈ db.pages, p.id < db.nextPageId)
    (hold : ∃ p ∈ db.pages, p.id = oldId ∧ p.url = url) :
    (((writePageWithChildren db url source title content contentHtml bc
        lastmod sections examples).1.pages.filter
          (fun p => decide (p.url = url))).map
            (fun p => (p.title, p.content))
      = [(title, content)])
    ∧ (∀ s ∈ (writePageWithChildren db url source title content contentHtml
        bc lastmod sections examples).1.sections, s.pageId ≠ oldId)
    ∧ (∀ e ∈ (writePageWithChildren db url source title content contentHtml
        bc lastmod sections examples).1.codeExamples, e.pageId ≠ oldId)
    ∧ (((writePageWithChildren (writePageWithChildren db url source title
          content contentHtml bc lastmod sections examples).1 url source
          title content contentHtml bc lastmod sections
          examples).1.pages.filter (fun p => decide (p.url = url))).map
            (fun p => (p.title, p.content))
      = [(title, content)]) := by
  obtain ⟨p0, hp0, hid0, hurl0⟩ := hold
  have hoMem : oldId ∈
      ((db.pages.filter (fun p => decide (p.url = url))).map PageRow.id) :=
    List.mem_map.2 ⟨p0, List.mem_filter.2 ⟨hp0, by simp [hurl0]⟩, hid0⟩
  have hlt : oldId < db.nextPageId := hid0 ▸ hids p0 hp0
  have hpid : (insertOrReplacePage db url source title content contentHtml
      bc lastmod).2 = db.nextPageId := rfl
  refine ⟨write_pages_view db url source title content contentHtml bc
    lastmod sections examples, ?_, ?_,
    write_pages_view _ url source title content contentHtml bc
      lastmod sections examples⟩
  · intro s hs
    simp only [writePageWithChildren] at hs
    rw [exFold_sections] at hs
    rcases secFold_sections_mem sections _ _ s hs with h | h
    · simp only [insertOrReplacePage] at h
      have h2 := (List.mem_filter.1 h).2
      simp only [Bool.not_eq_true', decide_eq_false_iff_not] at h2
      exact fun hEq => h2 (hEq ▸ hoMem)
    · rw [hpid] at h
      omega
  · intro e he
    simp only [writePageWithChildren] at he
    rcases exFold_examples_mem examples _ _ e he with h | h
    · rw [secFold_codeExamples] at h
      simp only [insertOrReplacePage] at h
      obtain ⟨e0, he0, rfl⟩ := List.mem_map.1 h
      have h2 := (List.mem_filter.1 he0).2
      simp only [Bool.not_eq_true', decide_eq_false_iff_not] at h2
      have hpg : (if optMem e0.sectionId ((db.sections.filter (fun s =>
          decide (s.pageId ∈ (db.pages.filter (fun p =>
            decide (p.url = url))).map PageRow.id))).map SectionRow.id)
          then { e0 with sectionId := none } else e0).pageId = e0.pageId := by
        split <;> rfl
      rw [hpg]
      exact fun hEq => h2 (hEq ▸ hoMem)
    · rw [hpid] at h
      omega

/-- Witness for C1 at a one-page store holding url "u" with a section and a
code example under the old id 1: the re-upsert leaves exactly the new
(title, content) at "u". -/
theorem spec_C1_witness :
    ((writePageWithChildren
        { pages := [⟨1, "u", "framework", "t1", "c1", "", "[]", none⟩],
          sections := [⟨1, 1, "S", 2, "b", "s"⟩],
          codeExamples := [⟨1, 1, some 1, "python", "x", "S"⟩],
          nodes := [], pagesFts := [⟨1, "t1", "c1"⟩],
          sectionsFts := [⟨1, "S", "b"⟩],
          nextPageId := 2, nextSectionId := 2, nextCodeExampleId := 2,
          nextNodeId := 1 }
        "u" "framework" "t2" "c2" "" "[]" none [] []).1.pages.filter
          (fun p => decide (p.url = "u"))).map (fun p => (p.title, p.content))
      = [("t2", "c2")] :=
  (spec_C1
    { pages := [⟨1, "u", "framework", "t1", "c1", "", "[]", none⟩],
      sections := [⟨1, 1, "S", 2, "b", "s"⟩],
      codeExamples := [⟨1, 1, some 1, "python", "x", "S"⟩],
      nodes := [], pagesFts := [⟨1, "t1", "c1"⟩],
      sectionsFts := [⟨1, "S", "b"⟩],
      nextPageId := 2, nextSectionId := 2, nextCodeExampleId := 2,
      nextNodeId := 1 }
    "u" "framework" "t2" "c2" "" "[]" none [] [] 1
    (by decide)
    ⟨⟨1, "u", "framework", "t1", "c1", "", "[]", none⟩,
      by decide, rfl, rfl⟩).1

/-- The pages full-text index carries exactly the (rowid, title, content)
rows of the pages table. -/
def pagesFtsMirrors (db : DB) : Prop :=
  (∀ r ∈ db.pagesFts, ∃ p ∈ db.pages,
    p.id = r.rowid ∧ p.title = r.title ∧ p.content = r.content)
  ∧ (∀ p ∈ db.pages, ∃ r ∈ db.pagesFts,
    p.id = r.rowid ∧ p.title = r.title ∧ p.content = r.content)

/-- The sections full-text index carries exactly the (rowid, heading,
content) rows of the sections table. -/
def sectionsFtsMirrors (db : DB) : Prop :=
  (∀ r ∈ db.sectionsFts, ∃ s ∈ db.sections,
    s.id = r.rowid ∧ s.heading = r.heading ∧ s.content = r.content)
  ∧ (∀ s ∈ db.sections, ∃ r ∈ db.sectionsFts,
    s.id = r.rowid ∧ s.heading = r.heading ∧ s.content = r.content)

/-- A first scrape write of url "u" into a fresh store. -/
def upsertOnce : DB :=
  (writePageWithChildren emptyDB "u" "framework" "t1" "c1" "" "[]" none
    [⟨"S", 2, "b", "s"⟩] []).1

/-- The re-scrape of url "u": the upsert-by-URL replace path. -/
def upsertTwice : DB :=
  (writePageWithChildren upsertOnce "u" "framework" "t2" "c2" "" "[]" none
    [⟨"S", 2, "b2", "s"⟩] []).1

/-- C2: the claim fails on the replace path.  After a plain insert both
indexes mirror their base tables, and the sections index even survives the
re-upsert (the cascade deletions fire the sections delete trigger), but the
implicit delete performed by INSERT OR REPLACE on the conflicting pages row
fires no delete trigger under the default recursive_triggers=OFF, so after
re-scraping url "u" the pages_fts index still holds the replaced row
(rowid 1, "t1", "c1") while the pages table only holds the new row with
id 2 — the index observes content the base table no longer has. -/
theorem spec_C2 :
    pagesFtsMirrors upsertOnce
    ∧ sectionsFtsMirrors upsertOnce
    ∧ sectionsFtsMirrors upsertTwice
    ∧ ¬ pagesFtsMirrors upsertTwice
    ∧ (⟨1, "t1", "c1"⟩ : PagesFtsRow) ∈ upsertTwice.pagesFts
    ∧ upsertTwice.pages.map PageRow.id = [2] := by
  refine ⟨?_, ?_, ?_, ?_, by decide, by decide⟩
  · unfold pagesFtsMirrors
    decide
  · unfold sectionsFtsMirrors
    decide
  · unfold sectionsFtsMirrors
    decide
  · unfold pagesFtsMirrors
    decide

theorem write_pages_title_view (db : DB) (url source title content
    contentHtml bc : String) (lastmod : Option String)
    (sections : List SectionRec) (examples : List ExampleRec) :
    ((writePageWithChildren db url source title content contentHtml bc
      lastmod sections examples).1.pages.filter
        (fun p => decide (p.url = url))).map PageRow.title
    = [title] := by
  rw [write_pages_eq, List.filter_append]
  have h1 : (db.pages.filter (fun p => !decide (p.url = url))).filter
      (fun p => decide (p.url = url)) = [] := by
    rw [List.filter_filter]
    apply List.filter_eq_nil_iff.2
    intro p _
    by_cases h : p.url = url <;> simp [h]
  rw [h1]
  simp

/-- C5 counterexample: the GitHub markdown scraper does not skip a fetched
file whose extraction yields no title — it writes the page under a
filename-derived title.  The markdown body "no heading" yields title "",
yet the page is stored with title "Load Image" and the error counter stays
at zero (a node row is even derived). -/
theorem spec_C5_counterexample :
    (parse_markdown "no heading").title = ""
    ∧ (githubStep (emptyDB, ⟨0, 0, 0, 0, 0⟩)
        ⟨"docs/nodes/image/load_image.md", "load_image.md",
          some "no heading", none⟩).1.pages.map PageRow.title
      = ["Load Image"]
    ∧ (githubStep (emptyDB, ⟨0, 0, 0, 0, 0⟩)
        ⟨"docs/nodes/image/load_image.md", "load_image.md",
          some "no heading", none⟩).2.errors = 0
    ∧ (githubStep (emptyDB, ⟨0, 0, 0, 0, 0⟩)
        ⟨"docs/nodes/image/load_image.md", "load_image.md",
          some "no heading", none⟩).1.pages ≠ [] := by
  refine ⟨by decide, by decide, by decide, by decide⟩

/-- C5 (amended): the framework (and nodes web) scraper silently skips a
fetched page whose extraction yields no title — nothing is written and the
error counter is untouched — and every pages row it writes carries the
non-empty extracted title; the GitHub markdown scraper instead substitutes
the filename-derived fallback title and writes the page, likewise without
counting an error. -/
theorem spec_C5 (extract : String → Extracted)
    (lastmod : String → Option String) (db : DB) (stats : Stats)
    (page : FetchOut) (f : GhFile) :
    (page.error = none → (extract (page.html.getD "")).title = "" →
      frameworkStep extract lastmod (db, stats) page = (db, stats))
    ∧ (∀ p ∈ (frameworkStep extract lastmod (db, stats) page).1.pages,
        p ∈ db.pages ∨ p.title ≠ "")
    ∧ (f.error = none → (parse_markdown (f.content.getD "")).title = "" →
        ((githubStep (db, stats) f).1.pages.filter
          (fun p => decide (p.url = path_to_docs_url f.path))).map
            PageRow.title
          = [githubFallbackTitle f.name]
        ∧ (githubStep (db, stats) f).2.errors = stats.errors) := by
  refine ⟨?_, ?_, ?_⟩
  · intro herr htitle
    unfold frameworkStep
    rw [herr]
    simp [htitle]
  · intro p hp
    unfold frameworkStep at hp
    cases herr : page.error with
    | some msg => rw [herr] at hp; exact Or.inl hp
    | none =>
      rw [herr] at hp
      by_cases htitle : (extract (page.html.getD "")).title = ""
      · simp only [htitle, if_pos rfl] at hp
        exact Or.inl hp
      · simp only [if_neg htitle] at hp
        rw [write_pages_eq] at hp
        rcases List.mem_append.1 hp with h | h
        · exact Or.inl (List.mem_filter.1 h).1
        · right
          rw [List.mem_singleton.1 h]
          exact htitle
  · intro herr htitle
    unfold githubStep
    rw [herr]
    simp only [htitle, if_pos rfl, if_true]
    cases hni : extract_node_info f.path (githubFallbackTitle f.name) with
    | some ni =>
      dsimp only
      constructor
      · have : (insertNode (writePageWithChildren db
            (path_to_docs_url f.path) "nodes" (githubFallbackTitle f.name)
            (f.content.getD "") "" "[]" none
            (parse_markdown (f.content.getD "")).sections
            (parse_markdown (f.content.getD "")).examples).1
            ni.name ni.displayName ni.category
            (if f.content.getD "" = "" then none
             else some (pyTake 500 (f.content.getD "")))
            (some (writePageWithChildren db (path_to_docs_url f.path)
              "nodes" (githubFallbackTitle f.name) (f.content.getD "") ""
              "[]" none (parse_markdown (f.content.getD "")).sections
              (parse_markdown (f.content.getD "")).examples).2)).pages
            = (writePageWithChildren db (path_to_docs_url f.path) "nodes"
                (githubFallbackTitle f.name) (f.content.getD "") "" "[]"
                none (parse_markdown (f.content.getD "")).sections
                (parse_markdown (f.content.getD "")).examples).1.pages :=
          rfl
        rw [this, write_pages_title_view]
      · rfl
    | none =>
      dsimp only
      exact ⟨write_pages_title_view db (path_to_docs_url f.path) "nodes"
        (githubFallbackTitle f.name) (f.content.getD "") "" "[]" none
        (parse_markdown (f.content.getD "")).sections
        (parse_markdown (f.content.getD "")).examples, rfl⟩

/-- Witness for C5: a framework page whose extraction yields no title is
dropped without touching the store or the error counter. -/
theorem spec_C5_witness :
    frameworkStep (fun _ => ⟨"", "body", "", [], [], []⟩) (fun _ => none)
        (emptyDB, ⟨0, 0, 0, 0, 0⟩) ⟨"u", some "<html>", none, []⟩
      = (emptyDB, ⟨0, 0, 0, 0, 0⟩) :=
  (spec_C5 (fun _ => ⟨"", "body", "", [], [], []⟩) (fun _ => none) emptyDB
    ⟨0, 0, 0, 0, 0⟩ ⟨"u", some "<html>", none, []⟩
    ⟨"p", "n", none, none⟩).1 rfl rfl

/-- C7: a success response whose declared content-length header, or whose
actual decoded text length, exceeds the 10 MB ceiling yields the per-URL
error outcome (no buffered html), and the scrape loop counts such an
errored URL and writes nothing for it. -/
theorem spec_C7 (oracle : Nat → GetResult) (url : String) :
    (∀ k st cl text, k < MAX_RETRIES →
      (∀ i, i < k → is429 (oracle i) = true) →
      oracle k = GetResult.ok st cl text →
      200 ≤ st → st ≤ 299 →
      cl.getD 0 > MAX_RESPONSE_SIZE →
      (fetch_one oracle url).html = none
      ∧ (fetch_one oracle url).error
        = some ("Response too large (" ++ toString (cl.getD 0)
            ++ " bytes)"))
    ∧ (∀ k st cl text, k < MAX_RETRIES →
      (∀ i, i < k → is429 (oracle i) = true) →
      oracle k = GetResult.ok st cl text →
      200 ≤ st → st ≤ 299 →
      cl.getD 0 ≤ MAX_RESPONSE_SIZE → text.length > MAX_RESPONSE_SIZE →
      (fetch_one oracle url).html = none
      ∧ (fetch_one oracle url).error
        = some ("Response too large (" ++ toString text.length
            ++ " bytes)"))
    ∧ (∀ (extract : String → Extracted) (lastmod : String → Option String)
        (db : DB) (stats : Stats) (page : FetchOut) (msg : String),
        page.error = some msg →
        frameworkStep extract lastmod (db, stats) page
          = (db, { stats with errors := stats.errors + 1 })) := by
  refine ⟨?_, ?_, ?_⟩
  · intro k st cl text hk h429 hsucc h200 h299 hcl
    unfold fetch_one
    rw [fetchOneGo_skip429 oracle url k 0 MAX_RETRIES (le_of_lt hk)
      (by simpa using h429)]
    obtain ⟨m, hm⟩ : ∃ m, MAX_RETRIES - k = m + 1 :=
      ⟨MAX_RETRIES - k - 1, by omega⟩
    rw [Nat.zero_add, hm]
    simp only [fetchOneGo, hsucc]
    rw [if_neg (by omega : ¬ st = 429)]
    rw [if_neg (not_not_intro ⟨h200, h299⟩)]
    rw [if_pos hcl]
    exact ⟨rfl, rfl⟩
  · intro k st cl text hk h429 hsucc h200 h299 hcl htext
    unfold fetch_one
    rw [fetchOneGo_skip429 oracle url k 0 MAX_RETRIES (le_of_lt hk)
      (by simpa using h429)]
    obtain ⟨m, hm⟩ : ∃ m, MAX_RETRIES - k = m + 1 :=
      ⟨MAX_RETRIES - k - 1, by omega⟩
    rw [Nat.zero_add, hm]
    simp only [fetchOneGo, hsucc]
    rw [if_neg (by omega : ¬ st = 429)]
    rw [if_neg (not_not_intro ⟨h200, h299⟩)]
    rw [if_neg (by omega : ¬ cl.getD 0 > MAX_RESPONSE_SIZE)]
    rw [if_pos htext]
    exact ⟨rfl, rfl⟩
  · intro extract lastmod db stats page msg herr
    unfold frameworkStep
    rw [herr]

/-- Witness for C7: a first-attempt success declaring 20 MB is turned into
the error outcome, and the scrape loop counts an errored page without
writing it. -/
theorem spec_C7_witness :
    ((fetch_one (fun _ => GetResult.ok 200 (some 20000000) "x") "u").html
        = none
      ∧ (fetch_one (fun _ => GetResult.ok 200 (some 20000000) "x") "u").error
        = some "Response too large (20000000 bytes)")
    ∧ frameworkStep (fun _ => ⟨"t", "b", "", [], [], []⟩) (fun _ => none)
        (emptyDB, ⟨0, 0, 0, 0, 0⟩) ⟨"u", none, some "too big", []⟩
      = (emptyDB, ⟨0, 0, 0, 0, 1⟩) := by
  constructor
  · have h := (spec_C7 (fun _ => GetResult.ok 200 (some 20000000) "x")
      "u").1 0 200 (some 20000000) "x" (by decide) (by omega) rfl
      (by decide) (by decide) (by decide)
    exact ⟨h.1, h.2.trans (by decide)⟩
  · have h := (spec_C7 (fun _ => GetResult.ok 200 (some 20000000) "x")
      "u").2.2 (fun _ => ⟨"t", "b", "", [], [], []⟩) (fun _ => none)
      emptyDB ⟨0, 0, 0, 0, 0⟩ ⟨"u", none, some "too big", []⟩ "too big" rfl
    exact h.trans (by decide)

/-! ## Query layer (src/griptape_mcp/db.py) -/

/-- `get_node_by_name(conn, name)`: exact match on name/display_name, then
LIKE (substring) match, then space-stripped LIKE match, each `LIMIT 1`
without ORDER BY (first row in table order); the joined pages columns do
not affect which node row is returned. -/
def get_node_by_name (db : DB) (name : String) : Option NodeRow :=
  match db.nodes.find? (fun n =>
    decide (n.name = name) || decide (n.displayName = name)) with
  | some n => some n
  | none =>
    match db.nodes.find? (fun n =>
      likeContains name n.name || likeContains name n.displayName) with
    | some n => some n
    | none =>
      db.nodes.find? (fun n =>
        likeContains (stripSpaces name) (stripSpaces n.name)
        || likeContains (stripSpaces name) (stripSpaces n.displayName))

/-- C9: the three lookup tiers run in order, each consulted only when the
previous found nothing; a node whose space-stripped name contains the
space-stripped query is always found; in particular a store holding
"LoadImage" answers the query "Load Image" with that node, and a store
holding "Load Image" answers "LoadImage" with that node. -/
theorem spec_C9 (db : DB) (name : String) :
    (∀ n : NodeRow,
      db.nodes.find? (fun n2 => decide (n2.name = name)
        || decide (n2.displayName = name)) = some n →
      get_node_by_name db name = some n)
    ∧ (db.nodes.find? (fun n2 => decide (n2.name = name)
        || decide (n2.displayName = name)) = none →
      ∀ n : NodeRow,
        db.nodes.find? (fun n2 => likeContains name n2.name
          || likeContains name n2.displayName) = some n →
        get_node_by_name db name = some n)
    ∧ (db.nodes.find? (fun n2 => decide (n2.name = name)
        || decide (n2.displayName = name)) = none →
      db.nodes.find? (fun n2 => likeContains name n2.name
        || likeContains name n2.displayName) = none →
      get_node_by_name db name
        = db.nodes.find? (fun n2 =>
            likeContains (stripSpaces name) (stripSpaces n2.name)
            || likeContains (stripSpaces name) (stripSpaces n2.displayName)))
    ∧ ((∃ n ∈ db.nodes, likeContains (stripSpaces name)
        (stripSpaces n.name) = true) → (get_node_by_name db name).isSome)
    ∧ (get_node_by_name { emptyDB with nodes :=
        [⟨1, "LoadImage", "LoadImage", "Image", none, none⟩] } "Load Image"
      = some ⟨1, "LoadImage", "LoadImage", "Image", none, none⟩)
    ∧ (get_node_by_name { emptyDB with nodes :=
        [⟨1, "Load Image", "Load Image", "Image", none, none⟩] } "LoadImage"
      = some ⟨1, "Load Image", "Load Image", "Image", none, none⟩) := by
  refine ⟨?_, ?_, ?_, ?_, by decide, by decide⟩
  · intro n h
    unfold get_node_by_name
    rw [h]
  · intro h1 n h2
    unfold get_node_by_name
    rw [h1, h2]
  · intro h1 h2
    unfold get_node_by_name
    rw [h1, h2]
  · intro hex
    unfold get_node_by_name
    cases h1 : db.nodes.find? (fun n2 => decide (n2.name = name)
        || decide (n2.displayName = name)) with
    | some n => simp
    | none =>
      cases h2 : db.nodes.find? (fun n2 => likeContains name n2.name
          || likeContains name n2.displayName) with
      | some n => simp
      | none =>
        simp only []
        rw [List.find?_isSome]
        obtain ⟨n, hn, hlike⟩ := hex
        exact ⟨n, hn, by simp [hlike]⟩

/-- Witness for C9: the singleton "LoadImage" store satisfies the
space-stripped-containment hypothesis for the query "Load Image", so the
lookup finds a node. -/
theorem spec_C9_witness :
    (∃ n ∈ ({ emptyDB with nodes :=
        [⟨1, "LoadImage", "LoadImage", "Image", none, none⟩] } : DB).nodes,
      likeContains (stripSpaces "Load Image") (stripSpaces n.name) = true)
    ∧ (get_node_by_name { emptyDB with nodes :=
        [⟨1, "LoadImage", "LoadImage", "Image", none, none⟩] }
        "Load Image").isSome := by
  refine ⟨by decide, (spec_C9 { emptyDB with nodes :=
    [⟨1, "LoadImage", "LoadImage", "Image", none, none⟩] }
    "Load Image").2.2.2.1 (by decide)⟩

/-- One result row of `search_code_examples` (the dict after `ce_id` is
popped): example columns, the (possibly NULL) section heading from the
LEFT JOIN, and the owning page's title and url. -/
structure CodeHit where
  language : String
  code : String
  context : String
  heading : Option String
  title : String
  url : String
deriving Repr, DecidableEq

/-- Layer 1 of `search_code_examples`: sections_fts MATCH (abstracted as
the predicate `secMatch`), joined through `code_examples.section_id` and
`pages`; rows are enumerated in table order, standing for the abstract
`ORDER BY rank` order (no property proved below depends on the intra-layer
order); `LIMIT` applies after the join.  Each row keeps its `ce.id`. -/
def layer1Rows (db : DB) (secMatch : SectionRow → Bool) (limit : Nat) :
    List (Nat × CodeHit) :=
  ((db.sections.filter secMatch).bind (fun s =>
    (db.codeExamples.filter
      (fun ce => decide (ce.sectionId = some s.id))).filterMap (fun ce =>
      (db.pages.find? (fun p => decide (p.id = ce.pageId))).map (fun p =>
        (ce.id, ⟨ce.language, ce.code, ce.context, some s.heading,
          p.title, p.url⟩))))).take limit

/-- Layer 2: pages_fts MATCH (abstracted as `pageMatch`) joined to all the
page's examples, LEFT JOIN to the linked section. -/
def layer2Rows (db : DB) (pageMatch : PageRow → Bool) (limit : Nat) :
    List (Nat × CodeHit) :=
  ((db.pages.filter pageMatch).bind (fun p =>
    (db.codeExamples.filter (fun ce => decide (ce.pageId = p.id))).map
      (fun ce =>
        (ce.id, ⟨ce.language, ce.code, ce.context,
          (ce.sectionId.bind (fun sid =>
            db.sections.find? (fun s => decide (s.id = sid)))).map
              SectionRow.heading,
          p.title, p.url⟩)))).take limit

/-- Layer 3: `ce.code LIKE '%q%' OR ce.context LIKE '%q%'`. -/
def layer3Rows (db : DB) (q : String) (limit : Nat) :
    List (Nat × CodeHit) :=
  ((db.codeExamples.filter
    (fun ce => likeContains q ce.code || likeContains q ce.context)).filterMap
      (fun ce =>
        (db.pages.find? (fun p => decide (p.id = ce.pageId))).map (fun p =>
          (ce.id, ⟨ce.language, ce.code, ce.context,
            (ce.sectionId.bind (fun sid =>
              db.sections.find? (fun s => decide (s.id = sid)))).map
                SectionRow.heading,
            p.title, p.url⟩)))).take limit

/-- The `_collect` helper: append each row whose `ce_id` has not been seen,
recording the id. -/
def collectGo (seen : List Nat) (acc : List (Nat × CodeHit)) :
    List (Nat × CodeHit) → List Nat × List (Nat × CodeHit)
  | [] => (seen, acc)
  | r :: rs =>
    if decide (r.1 ∈ seen) then collectGo seen acc rs
    else collectGo (r.1 :: seen) (acc ++ [r]) rs

/-- State after layer 1 (which always runs). -/
def afterLayer1 (db : DB) (secMatch : SectionRow → Bool) (limit : Nat) :
    List Nat × List (Nat × CodeHit) :=
  collectGo [] [] (layer1Rows db secMatch limit)

/-- State after the conditional layer 2. -/
def afterLayer2 (db : DB) (secMatch : SectionRow → Bool)
    (pageMatch : PageRow → Bool) (limit : Nat) :
    List Nat × List (Nat × CodeHit) :=
  if (afterLayer1 db secMatch limit).2.length < limit then
    collectGo (afterLayer1 db secMatch limit).1
      (afterLayer1 db secMatch limit).2
      (layer2Rows db pageMatch
        (limit - (afterLayer1 db secMatch limit).2.length))
  else afterLayer1 db secMatch limit

/-- The collected rows of `search_code_examples` with their `ce.id` kept
(the id the Python code pops off each dict before appending). -/
def searchCodeExamplesFull (db : DB) (secMatch : SectionRow → Bool)
    (pageMatch : PageRow → Bool) (q : String) (limit : Nat) :
    List (Nat × CodeHit) :=
  if (afterLayer2 db secMatch pageMatch limit).2.length < limit then
    (collectGo (afterLayer2 db secMatch pageMatch limit).1
      (afterLayer2 db secMatch pageMatch limit).2
      (layer3Rows db q
        (limit - (afterLayer2 db secMatch pageMatch limit).2.length))).2
  else (afterLayer2 db secMatch pageMatch limit).2

/-- `search_code_examples(conn, query, limit)`, with the two FTS MATCH
predicates abstracted as arguments (SQLite FTS5 semantics are external to
this repository) and the LIKE layer on the literal query. -/
def search_code_examples (db : DB) (secMatch : SectionRow → Bool)
    (pageMatch : PageRow → Bool) (q : String) (limit : Nat) :
    List CodeHit :=
  ((searchCodeExamplesFull db secMatch pageMatch q limit).map
    Prod.snd).take limit

theorem collectGo_acc (rows : List (Nat × CodeHit)) :
    ∀ (seen : List Nat) (acc : List (Nat × CodeHit)),
      ∃ delta, (collectGo seen acc rows).2 = acc ++ delta
        ∧ ∀ x ∈ delta, x ∈ rows ∧ x.1 ∉ seen := by
  induction rows with
  | nil =>
    intro seen acc
    exact ⟨[], by simp [collectGo]⟩
  | cons r rs ih =>
    intro seen acc
    by_cases hmem : r.1 ∈ seen
    · obtain ⟨delta, hd, hsub⟩ := ih seen acc
      refine ⟨delta, ?_, ?_⟩
      · rw [collectGo, if_pos (by simpa using hmem)]
        exact hd
      · intro x hx
        exact ⟨List.mem_cons_of_mem r (hsub x hx).1, (hsub x hx).2⟩
    · obtain ⟨delta, hd, hsub⟩ := ih (r.1 :: seen) (acc ++ [r])
      refine ⟨r :: delta, ?_, ?_⟩
      · rw [collectGo, if_neg (by simpa using hmem), hd]
        simp
      · intro x hx
        rcases List.mem_cons.1 hx with rfl | hx2
        · exact ⟨List.mem_cons_self _ _, hmem⟩
        · refine ⟨List.mem_cons_of_mem _ (hsub x hx2).1, ?_⟩
          intro hxs
          exact (hsub x hx2).2 (List.mem_cons_of_mem _ hxs)

theorem collectGo_nodup (rows : List (Nat × CodeHit)) :
    ∀ (seen : List Nat) (acc : List (Nat × CodeHit)),
      (acc.map Prod.fst).Nodup →
      (∀ i ∈ acc.map Prod.fst, i ∈ seen) →
      ((collectGo seen acc rows).2.map Prod.fst).Nodup
      ∧ (∀ i ∈ (collectGo seen acc rows).2.map Prod.fst,
          i ∈ (collectGo seen acc rows).1) := by
  induction rows with
  | nil =>
    intro seen acc h1 h2
    exact ⟨h1, h2⟩
  | cons r rs ih =>
    intro seen acc h1 h2
    by_cases hmem : r.1 ∈ seen
    · rw [collectGo, if_pos (by simpa using hmem)]
      exact ih seen acc h1 h2
    · rw [collectGo, if_neg (by simpa using hmem)]
      apply ih (r.1 :: seen) (acc ++ [r])
      · rw [List.map_append]
        simp only [List.map_cons, List.map_nil]
        rw [List.nodup_append]
        refine ⟨h1, List.nodup_singleton _, ?_⟩
        intro i hi hj
        rw [List.mem_singleton] at hj
        exact hmem (hj ▸ h2 i hi)
      · intro i hi
        rw [List.map_append] at hi
        rcases List.mem_append.1 hi with h | h
        · exact List.mem_cons_of_mem _ (h2 i h)
        · simp only [List.map_cons, List.map_nil,
            List.mem_singleton] at h
          rw [h]
          exact List.mem_cons_self _ _

/-- C8: layer 2 runs only when layer 1 filled fewer rows than the limit
(otherwise the result is unchanged under any page-match and any layer-3
query), layer 3 runs only when layers 1-2 are still short (otherwise the
result is unchanged under any layer-3 query); the collected ce ids are
pairwise distinct, so no example appears twice; and the collected rows
decompose as the layer-1 contribution, then the layer-2 contribution, then
the layer-3 contribution — section-FTS results always precede layer-3
substring results. -/
theorem spec_C8 (db : DB) (m1 : SectionRow → Bool) (m2 m2b : PageRow → Bool)
    (q qb : String) (limit : Nat) :
    ((afterLayer1 db m1 limit).2.length ≥ limit →
      search_code_examples db m1 m2 q limit
        = search_code_examples db m1 m2b qb limit)
    ∧ ((afterLayer2 db m1 m2 limit).2.length ≥ limit →
      search_code_examples db m1 m2 q limit
        = search_code_examples db m1 m2 qb limit)
    ∧ ((searchCodeExamplesFull db m1 m2 q limit).map Prod.fst).Nodup
    ∧ (∃ a b c, searchCodeExamplesFull db m1 m2 q limit = a ++ b ++ c
        ∧ (∀ x ∈ a, x ∈ layer1Rows db m1 limit)
        ∧ (∀ x ∈ b, x ∈ layer2Rows db m2
            (limit - (afterLayer1 db m1 limit).2.length))
        ∧ (∀ x ∈ c, x ∈ layer3Rows db q
            (limit - (afterLayer2 db m1 m2 limit).2.length))) := by
  have hinv1 : ((afterLayer1 db m1 limit).2.map Prod.fst).Nodup
      ∧ ∀ i ∈ (afterLayer1 db m1 limit).2.map Prod.fst,
          i ∈ (afterLayer1 db m1 limit).1 :=
    collectGo_nodup _ [] [] (by simp) (by simp)
  have hinv2 : ((afterLayer2 db m1 m2 limit).2.map Prod.fst).Nodup
      ∧ ∀ i ∈ (afterLayer2 db m1 m2 limit).2.map Prod.fst,
          i ∈ (afterLayer2 db m1 m2 limit).1 := by
    unfold afterLayer2
    by_cases hc1 : (afterLayer1 db m1 limit).2.length < limit
    · rw [if_pos hc1]
      exact collectGo_nodup _ _ _ hinv1.1 hinv1.2
    · rw [if_neg hc1]
      exact hinv1
  refine ⟨?_, ?_, ?_, ?_⟩
  · intro h
    have h1 : ¬ (afterLayer1 db m1 limit).2.length < limit := by omega
    simp only [search_code_examples, searchCodeExamplesFull, afterLayer2,
      if_neg h1]
  · intro h
    have h2 : ¬ (afterLayer2 db m1 m2 limit).2.length < limit := by omega
    simp only [search_code_examples, searchCodeExamplesFull, if_neg h2]
  · unfold searchCodeExamplesFull
    by_cases hc2 : (afterLayer2 db m1 m2 limit).2.length < limit
    · rw [if_pos hc2]
      exact (collectGo_nodup _ _ _ hinv2.1 hinv2.2).1
    · rw [if_neg hc2]
      exact hinv2.1
  · obtain ⟨a, ha, hasub⟩ := collectGo_acc (layer1Rows db m1 limit) [] []
    have ha1 : (afterLayer1 db m1 limit).2 = a := by
      unfold afterLayer1
      simpa using ha
    have hb : ∃ b, (afterLayer2 db m1 m2 limit).2 = a ++ b
        ∧ ∀ x ∈ b, x ∈ layer2Rows db m2
            (limit - (afterLayer1 db m1 limit).2.length) := by
      unfold afterLayer2
      by_cases hc1 : (afterLayer1 db m1 limit).2.length < limit
      · rw [if_pos hc1]
        obtain ⟨b, hbe, hbs⟩ := collectGo_acc
          (layer2Rows db m2 (limit - (afterLayer1 db m1 limit).2.length))
          (afterLayer1 db m1 limit).1 (afterLayer1 db m1 limit).2
        exact ⟨b, by rw [hbe, ha1], fun x hx => (hbs x hx).1⟩
      · rw [if_neg hc1]
        exact ⟨[], by simp [ha1], by simp⟩
    obtain ⟨b, hab, hbsub⟩ := hb
    have hcx : ∃ c, searchCodeExamplesFull db m1 m2 q limit = (a ++ b) ++ c
        ∧ ∀ x ∈ c, x ∈ layer3Rows db q
            (limit - (afterLayer2 db m1 m2 limit).2.length) := by
      unfold searchCodeExamplesFull
      by_cases hc2 : (afterLayer2 db m1 m2 limit).2.length < limit
      · rw [if_pos hc2]
        obtain ⟨c, hce, hcs⟩ := collectGo_acc
          (layer3Rows db q (limit - (afterLayer2 db m1 m2 limit).2.length))
          (afterLayer2 db m1 m2 limit).1 (afterLayer2 db m1 m2 limit).2
        exact ⟨c, by rw [hce, hab], fun x hx => (hcs x hx).1⟩
      · rw [if_neg hc2]
        exact ⟨[], by simp [hab], by simp⟩
    obtain ⟨c, hfull, hcsub⟩ := hcx
    exact ⟨a, b, c, hfull, fun x hx => (hasub x hx).1, hbsub, hcsub⟩

/-- Witness for C8: with one section-FTS match already filling the limit of
one, the layer-2 match predicate and layer-3 query are never consulted. -/
theorem spec_C8_witness :
    ((afterLayer1
        { pages := [⟨1, "u", "framework", "t", "c", "", "[]", none⟩],
          sections := [⟨1, 1, "S", 2, "b", "s"⟩],
          codeExamples := [⟨1, 1, some 1, "python", "print", "S"⟩],
          nodes := [], pagesFts := [⟨1, "t", "c"⟩],
          sectionsFts := [⟨1, "S", "b"⟩], nextPageId := 2,
          nextSectionId := 2, nextCodeExampleId := 2, nextNodeId := 1 }
        (fun s => decide (s.heading = "S")) 1).2.length ≥ 1)
    ∧ search_code_examples
        { pages := [⟨1, "u", "framework", "t", "c", "", "[]", none⟩],
          sections := [⟨1, 1, "S", 2, "b", "s"⟩],
          codeExamples := [⟨1, 1, some 1, "python", "print", "S"⟩],
          nodes := [], pagesFts := [⟨1, "t", "c"⟩],
          sectionsFts := [⟨1, "S", "b"⟩], nextPageId := 2,
          nextSectionId := 2, nextCodeExampleId := 2, nextNodeId := 1 }
        (fun s => decide (s.heading = "S")) (fun _ => true) "zzz" 1
      = search_code_examples
        { pages := [⟨1, "u", "framework", "t", "c", "", "[]", none⟩],
          sections := [⟨1, 1, "S", 2, "b", "s"⟩],
          codeExamples := [⟨1, 1, some 1, "python", "print", "S"⟩],
          nodes := [], pagesFts := [⟨1, "t", "c"⟩],
          sectionsFts := [⟨1, "S", "b"⟩], nextPageId := 2,
          nextSectionId := 2, nextCodeExampleId := 2, nextNodeId := 1 }
        (fun s => decide (s.heading = "S")) (fun _ => false) "S" 1 := by
  refine ⟨by decide, (spec_C8
    { pages := [⟨1, "u", "framework", "t", "c", "", "[]", none⟩],
      sections := [⟨1, 1, "S", 2, "b", "s"⟩],
      codeExamples := [⟨1, 1, some 1, "python", "print", "S"⟩],
      nodes := [], pagesFts := [⟨1, "t", "c"⟩],
      sectionsFts := [⟨1, "S", "b"⟩], nextPageId := 2,
      nextSectionId := 2, nextCodeExampleId := 2, nextNodeId := 1 }
    (fun s => decide (s.heading = "S")) (fun _ => true) (fun _ => false)
    "zzz" "S" 1).1 (by decide)⟩
